import Mathlib

/-!
Shallow embedding of `src/infrastructure/modules/bedrock-knowledge-base/lambda/auto_ingestion.py`.

The Python module has three functions: `handler`, `is_ingestion_running` and
`start_ingestion_job`.  The remote service (bedrock client) is modelled by an
explicit environment `Env` that supplies the response of the n-th list-jobs
call and the n-th start-job call; a raised remote exception is an
`Except.error`.  Python `KeyError` raised by dictionary subscripting is
modelled by `PyErr`; the handler state `HState` accumulates the trace of
remote calls and of the log-equivalent observations.
-/

/-- One entry of `ingestionJobSummaries` as returned by the list-jobs call:
the fields the code reads are `ingestionJobId` and `status`. -/
structure IngestionJobSummary where
  ingestionJobId : String
  status : String
deriving Repr, DecidableEq

/-- A Python dictionary with string keys and string values, used for the
`ingestionJob` object the start-job call returns. -/
abbrev PyDict := List (String × String)

/-- Python truthiness of the value `start_ingestion_job` returns:
`None` and the empty dictionary are falsy, a non-empty dictionary is truthy. -/
def pyTruthy : Option PyDict → Bool
  | none => false
  | some d => !d.isEmpty

/-- `is_ingestion_running` (auto_ingestion.py lines 64-83): on a successful
list-jobs response it scans the summaries and returns true on the first one
whose status is in the list STARTING, IN_PROGRESS; if the remote call raises,
the exception handler returns false. -/
def is_ingestion_running (listResult : Except String (List IngestionJobSummary)) : Bool :=
  match listResult with
  | Except.error _ => false
  | Except.ok jobs => jobs.any fun job => ["STARTING", "IN_PROGRESS"].contains job.status

/-- `start_ingestion_job` (auto_ingestion.py lines 85-98): on remote success
the code returns `response.get` of the key ingestionJob with default the empty
dictionary; if the remote call raises, the exception handler returns `None`.
The remote API response is modelled as the optional ingestionJob dictionary. -/
def start_ingestion_job (apiResult : Except String (Option PyDict)) : Option PyDict :=
  match apiResult with
  | Except.error _ => none
  | Except.ok jobOpt => some (jobOpt.getD [])

/-- Is the character an ASCII hexadecimal digit (as accepted by the percent
decoder of urllib). -/
def isHexDigitCh (c : Char) : Bool :=
  c.isDigit || ('a' ≤ c && c ≤ 'f') || ('A' ≤ c && c ≤ 'F')

/-- Numeric value of an ASCII hexadecimal digit. -/
def hexDigitVal (c : Char) : Nat :=
  if c.isDigit then c.toNat - '0'.toNat
  else if 'a' ≤ c && c ≤ 'f' then c.toNat - 'a'.toNat + 10
  else c.toNat - 'A'.toNat + 10

/-- Percent decoding as performed by `urllib.parse.unquote`: a percent sign
followed by two hexadecimal digits is decoded to the corresponding code
point; a percent sign not followed by two hexadecimal digits is kept
verbatim and decoding continues with the next character.  (Decoded bytes are
mapped to code points directly; recombination of multi-byte UTF-8 sequences
is outside the fragment the claims exercise.) -/
def pctDecode : List Char → List Char
  | [] => []
  | '%' :: a :: b :: rest =>
      if isHexDigitCh a && isHexDigitCh b then
        Char.ofNat (16 * hexDigitVal a + hexDigitVal b) :: pctDecode rest
      else
        '%' :: pctDecode (a :: b :: rest)
  | c :: rest => c :: pctDecode rest

/-- `urllib.parse.unquote_plus` as used at auto_ingestion.py line 26: every
plus sign is first replaced by a space, then the string is percent decoded. -/
def unquote_plus (s : String) : String :=
  String.mk (pctDecode (s.data.map fun c => if c = '+' then ' ' else c))

/-- Does the character list `p` start the character list `s`. -/
def strStarts : List Char → List Char → Bool
  | _, [] => true
  | [], _ :: _ => false
  | c :: cs, p :: ps => c = p && strStarts cs ps

/-- The Python string method startswith, used at auto_ingestion.py line 31. -/
def pyStartsWith (s p : String) : Bool := strStarts s.data p.data

/-- One record of the `Records` list of the S3 event.  The nested accesses
`eventName`, the bucket name and the object key are flattened to one optional
field each; a missing field makes the corresponding subscripting raise. -/
structure RawRecord where
  eventName : Option String
  bucketName : Option String
  objectKey : Option String
deriving Repr, DecidableEq

/-- The handler input: the event dictionary, which may lack the `Records`
key. -/
structure S3Event where
  records : Option (List RawRecord)

/-- A Python exception reaching the outer `except` of the handler: the only
unhandled exception the embedded fragment can raise is `KeyError`. -/
inductive PyErr where
  | keyError (key : String)
deriving Repr, DecidableEq

/-- `str(e)` of a Python `KeyError` is the repr of the missing key. -/
def errStr : PyErr → String
  | PyErr.keyError k => "'" ++ k ++ "'"

/-- The two kinds of remote call the handler makes. -/
inductive RemoteCall where
  | listJobs
  | startJob
deriving Repr, DecidableEq

/-- Log-equivalent observations emitted while processing one record,
mirroring the logger calls of the handler body. -/
inductive LogEvent where
  | processing (eventName objectKey : String)
  | skipRunning
  | startedJob (jobId : String)
  | startFailed
deriving Repr, DecidableEq

/-- Handler state threaded through the batch loop: how many list-jobs and
start-job calls were made so far, the trace of remote calls in order, and the
log trace. -/
structure HState where
  nList : Nat
  nStart : Nat
  calls : List RemoteCall
  logs : List LogEvent
deriving Repr, DecidableEq

/-- The state at handler entry: no calls made yet. -/
def initState : HState := ⟨0, 0, [], []⟩

/-- The environment: the response of the n-th list-jobs call and of the n-th
start-job call.  `Except.error` is a raised remote exception. -/
structure Env where
  listResp : Nat → Except String (List IngestionJobSummary)
  startResp : Nat → Except String (Option PyDict)

/-- The body of the `for record in event` loop (auto_ingestion.py lines
22-44) for one record: extract the three fields (raising `KeyError` on a
missing one), decode the key, log, and if the event name starts with
ObjectCreated or ObjectRemoved, guard on `is_ingestion_running` and then
start a job; a truthy start response lacking the key ingestionJobId makes the
success log raise `KeyError`. -/
def processRecord (env : Env) (st : HState) (rec : RawRecord) : HState × Option PyErr :=
  match rec.eventName with
  | none => (st, some (PyErr.keyError "eventName"))
  | some event_name =>
    match rec.bucketName with
    | none => (st, some (PyErr.keyError "bucket"))
    | some _bucket_name =>
      match rec.objectKey with
      | none => (st, some (PyErr.keyError "key"))
      | some rawKey =>
        let object_key := unquote_plus rawKey
        let st1 : HState := ⟨st.nList, st.nStart, st.calls,
          st.logs ++ [LogEvent.processing event_name object_key]⟩
        if pyStartsWith event_name "ObjectCreated" || pyStartsWith event_name "ObjectRemoved" then
          let running := is_ingestion_running (env.listResp st1.nList)
          let st2 : HState := ⟨st1.nList + 1, st1.nStart,
            st1.calls ++ [RemoteCall.listJobs], st1.logs⟩
          if running then
            (⟨st2.nList, st2.nStart, st2.calls, st2.logs ++ [LogEvent.skipRunning]⟩, none)
          else
            let response := start_ingestion_job (env.startResp st2.nStart)
            let st3 : HState := ⟨st2.nList, st2.nStart + 1,
              st2.calls ++ [RemoteCall.startJob], st2.logs⟩
            if pyTruthy response then
              match List.lookup "ingestionJobId" (response.getD []) with
              | some jid =>
                  (⟨st3.nList, st3.nStart, st3.calls,
                    st3.logs ++ [LogEvent.startedJob jid]⟩, none)
              | none => (st3, some (PyErr.keyError "ingestionJobId"))
            else
              (⟨st3.nList, st3.nStart, st3.calls,
                st3.logs ++ [LogEvent.startFailed]⟩, none)
        else
          (st1, none)

/-- The batch loop: process the records in order, stopping at the first
record whose processing raises. -/
def runBatch (env : Env) : List RawRecord → HState → HState × Option PyErr
  | [], st => (st, none)
  | r :: rs, st =>
    match processRecord env st r with
    | (st1, none) => runBatch env rs st1
    | (st1, some e) => (st1, some e)

/-- The body of the handler result, mirroring the json body built at
auto_ingestion.py lines 46-62. -/
inductive HandlerBody where
  | success (message timestamp : String)
  | failure (error timestamp : String)
deriving Repr, DecidableEq

/-- The handler return value: status code and body. -/
structure HandlerResult where
  statusCode : Nat
  body : HandlerBody
deriving Repr, DecidableEq

/-- `handler` (auto_ingestion.py lines 14-62): iterate the batch inside a
try; an exception anywhere yields the 500 result, otherwise the 200 result.
`now` stands for the timestamp the code reads from the clock.  The final
handler state (with its call and log traces) is returned alongside for the
statements below. -/
def handler (env : Env) (now : String) (event : S3Event) : HandlerResult × HState :=
  match event.records with
  | none => (⟨500, HandlerBody.failure (errStr (PyErr.keyError "Records")) now⟩, initState)
  | some recs =>
    match runBatch env recs initState with
    | (st, none) => (⟨200, HandlerBody.success "Ingestion processing completed" now⟩, st)
    | (st, some e) => (⟨500, HandlerBody.failure (errStr e) now⟩, st)

/-- A record whose three fields are all present, so that its subscripting
does not raise. -/
def wellFormed (r : RawRecord) : Bool :=
  r.eventName.isSome && r.bucketName.isSome && r.objectKey.isSome

/-- A record whose event name starts with ObjectCreated or ObjectRemoved,
hence reaches the guard. -/
def qualifies (r : RawRecord) : Bool :=
  match r.eventName with
  | some en => pyStartsWith en "ObjectCreated" || pyStartsWith en "ObjectRemoved"
  | none => false

/-- A `start_ingestion_job` return value that does not make the success log
raise: either falsy or carrying the key ingestionJobId. -/
def startRespOk : Option PyDict → Bool
  | none => true
  | some d => d.isEmpty || (List.lookup "ingestionJobId" d).isSome

/-- The start-job response does not make the success log raise. -/
def startRecordable (apiResult : Except String (Option PyDict)) : Bool :=
  startRespOk (start_ingestion_job apiResult)

/-- The remote-call trace one pass over the batch produces when no job is
ever reported running and nothing raises: one list-jobs call and one
start-job call per qualifying record, in input order. -/
def expectedCalls (recs : List RawRecord) : List RemoteCall :=
  (recs.map fun r =>
    if qualifies r then [RemoteCall.listJobs, RemoteCall.startJob] else []).flatten


/-! ### Helper lemmas -/

lemma running_iff (jobs : List IngestionJobSummary) :
    is_ingestion_running (Except.ok jobs) = true ↔
      ∃ j ∈ jobs, j.status = "STARTING" ∨ j.status = "IN_PROGRESS" := by
  simp [is_ingestion_running, List.any_eq_true]

lemma processRecord_nonqual (env : Env) (st : HState) (en bk k : String)
    (h : (pyStartsWith en "ObjectCreated" || pyStartsWith en "ObjectRemoved") = false) :
    processRecord env st ⟨some en, some bk, some k⟩ =
      (⟨st.nList, st.nStart, st.calls,
        st.logs ++ [LogEvent.processing en (unquote_plus k)]⟩, none) := by
  simp [processRecord, h]

lemma processRecord_running (env : Env) (st : HState) (en bk k : String)
    (hq : (pyStartsWith en "ObjectCreated" || pyStartsWith en "ObjectRemoved") = true)
    (hr : is_ingestion_running (env.listResp st.nList) = true) :
    processRecord env st ⟨some en, some bk, some k⟩ =
      (⟨st.nList + 1, st.nStart, st.calls ++ [RemoteCall.listJobs],
        st.logs ++ [LogEvent.processing en (unquote_plus k), LogEvent.skipRunning]⟩, none) := by
  simp [processRecord, hq, hr]

lemma processRecord_startFailed (env : Env) (st : HState) (en bk k : String)
    (hq : (pyStartsWith en "ObjectCreated" || pyStartsWith en "ObjectRemoved") = true)
    (hr : is_ingestion_running (env.listResp st.nList) = false)
    (hs : pyTruthy (start_ingestion_job (env.startResp st.nStart)) = false) :
    processRecord env st ⟨some en, some bk, some k⟩ =
      (⟨st.nList + 1, st.nStart + 1, st.calls ++ [RemoteCall.listJobs, RemoteCall.startJob],
        st.logs ++ [LogEvent.processing en (unquote_plus k), LogEvent.startFailed]⟩, none) := by
  simp [processRecord, hq, hr, hs]

lemma processRecord_startedJob (env : Env) (st : HState) (en bk k jid : String)
    (hq : (pyStartsWith en "ObjectCreated" || pyStartsWith en "ObjectRemoved") = true)
    (hr : is_ingestion_running (env.listResp st.nList) = false)
    (hs : pyTruthy (start_ingestion_job (env.startResp st.nStart)) = true)
    (hid : List.lookup "ingestionJobId"
        ((start_ingestion_job (env.startResp st.nStart)).getD []) = some jid) :
    processRecord env st ⟨some en, some bk, some k⟩ =
      (⟨st.nList + 1, st.nStart + 1, st.calls ++ [RemoteCall.listJobs, RemoteCall.startJob],
        st.logs ++ [LogEvent.processing en (unquote_plus k), LogEvent.startedJob jid]⟩, none) := by
  simp [processRecord, hq, hr, hs, hid]

lemma processRecord_missingId (env : Env) (st : HState) (en bk k : String)
    (hq : (pyStartsWith en "ObjectCreated" || pyStartsWith en "ObjectRemoved") = true)
    (hr : is_ingestion_running (env.listResp st.nList) = false)
    (hs : pyTruthy (start_ingestion_job (env.startResp st.nStart)) = true)
    (hid : List.lookup "ingestionJobId"
        ((start_ingestion_job (env.startResp st.nStart)).getD []) = none) :
    processRecord env st ⟨some en, some bk, some k⟩ =
      (⟨st.nList + 1, st.nStart + 1, st.calls ++ [RemoteCall.listJobs, RemoteCall.startJob],
        st.logs ++ [LogEvent.processing en (unquote_plus k)]⟩,
       some (PyErr.keyError "ingestionJobId")) := by
  simp [processRecord, hq, hr, hs, hid]

lemma runBatch_cons_ok (env : Env) (r : RawRecord) (rs : List RawRecord) (st : HState)
    (h : (processRecord env st r).2 = none) :
    runBatch env (r :: rs) st = runBatch env rs (processRecord env st r).1 := by
  cases hp : processRecord env st r with
  | mk st1 e1 =>
    rw [hp] at h
    cases e1 with
    | none => simp [runBatch, hp]
    | some e => simp at h

lemma runBatch_append_ok (env : Env) (l1 l2 : List RawRecord) (st : HState)
    (h : (runBatch env l1 st).2 = none) :
    runBatch env (l1 ++ l2) st = runBatch env l2 (runBatch env l1 st).1 := by
  induction l1 generalizing st with
  | nil => simp [runBatch]
  | cons r rs ih =>
    cases hp : processRecord env st r with
    | mk st1 e1 =>
      cases e1 with
      | none =>
        have h2 : (runBatch env rs st1).2 = none := by
          simpa [runBatch, hp] using h
        simp [runBatch, hp, ih st1 h2]
      | some e =>
        exfalso
        simp [runBatch, hp] at h

lemma startRecordable_truthy (x : Except String (Option PyDict))
    (hrec : startRecordable x = true)
    (ht : pyTruthy (start_ingestion_job x) = true) :
    ∃ jid, List.lookup "ingestionJobId" ((start_ingestion_job x).getD []) = some jid := by
  unfold startRecordable at hrec
  cases hs : start_ingestion_job x with
  | none => rw [hs] at ht; simp [pyTruthy] at ht
  | some d =>
    rw [hs] at ht hrec
    have hd : d.isEmpty = false := by
      simpa [pyTruthy] using ht
    simp only [startRespOk, hd, Bool.false_or] at hrec
    rw [Option.isSome_iff_exists] at hrec
    simpa using hrec

lemma processRecord_ok (env : Env) (st : HState) (r : RawRecord)
    (hwf : wellFormed r = true)
    (hsr : startRecordable (env.startResp st.nStart) = true) :
    (processRecord env st r).2 = none := by
  obtain ⟨en?, bk?, k?⟩ := r
  simp only [wellFormed, Bool.and_eq_true, Option.isSome_iff_exists] at hwf
  obtain ⟨⟨⟨en, hen⟩, bk, hbk⟩, k, hk⟩ := hwf
  subst hen; subst hbk; subst hk
  cases hq : (pyStartsWith en "ObjectCreated" || pyStartsWith en "ObjectRemoved") with
  | false => rw [processRecord_nonqual env st en bk k hq]
  | true =>
    cases hr : is_ingestion_running (env.listResp st.nList) with
    | true => rw [processRecord_running env st en bk k hq hr]
    | false =>
      cases hs : pyTruthy (start_ingestion_job (env.startResp st.nStart)) with
      | false => rw [processRecord_startFailed env st en bk k hq hr hs]
      | true =>
        obtain ⟨jid, hid⟩ := startRecordable_truthy (env.startResp st.nStart) hsr hs
        rw [processRecord_startedJob env st en bk k jid hq hr hs hid]

lemma runBatch_noerr (env : Env) (recs : List RawRecord) (st : HState)
    (hwf : ∀ r ∈ recs, wellFormed r = true)
    (hsr : ∀ n, startRecordable (env.startResp n) = true) :
    (runBatch env recs st).2 = none := by
  induction recs generalizing st with
  | nil => simp [runBatch]
  | cons r rs ih =>
    have h1 : (processRecord env st r).2 = none :=
      processRecord_ok env st r (hwf r (List.mem_cons_self r rs)) (hsr st.nStart)
    rw [runBatch_cons_ok env r rs st h1]
    exact ih _ fun x hx => hwf x (List.mem_cons_of_mem r hx)

lemma expectedCalls_cons (r : RawRecord) (rs : List RawRecord) :
    expectedCalls (r :: rs) =
      (if qualifies r then [RemoteCall.listJobs, RemoteCall.startJob] else [])
        ++ expectedCalls rs := by
  simp [expectedCalls]

lemma runBatch_trace (env : Env) (recs : List RawRecord) (st : HState)
    (hwf : ∀ r ∈ recs, wellFormed r = true)
    (hnr : ∀ n, is_ingestion_running (env.listResp n) = false)
    (hsr : ∀ n, startRecordable (env.startResp n) = true) :
    (runBatch env recs st).2 = none ∧
      (runBatch env recs st).1.calls = st.calls ++ expectedCalls recs := by
  induction recs generalizing st with
  | nil => simp [runBatch, expectedCalls]
  | cons r rs ih =>
    have hwfr := hwf r (List.mem_cons_self r rs)
    have hwfs : ∀ x ∈ rs, wellFormed x = true :=
      fun x hx => hwf x (List.mem_cons_of_mem r hx)
    have h1 : (processRecord env st r).2 = none :=
      processRecord_ok env st r hwfr (hsr st.nStart)
    rw [runBatch_cons_ok env r rs st h1]
    obtain ⟨en?, bk?, k?⟩ := r
    simp only [wellFormed, Bool.and_eq_true, Option.isSome_iff_exists] at hwfr
    obtain ⟨⟨⟨en, hen⟩, bk, hbk⟩, k, hk⟩ := hwfr
    subst hen; subst hbk; subst hk
    cases hq : (pyStartsWith en "ObjectCreated" || pyStartsWith en "ObjectRemoved") with
    | false =>
      rw [processRecord_nonqual env st en bk k hq]
      obtain ⟨ha, hb⟩ := ih _ hwfs
      refine ⟨ha, ?_⟩
      rw [hb]
      simp [expectedCalls_cons, qualifies, pyStartsWith, hq]
      have hq2 : (strStarts en.data "ObjectCreated".data || strStarts en.data "ObjectRemoved".data) = false := hq
      simp only [Bool.or_eq_false_iff] at hq2
      simp [hq2.1, hq2.2]
    | true =>
      cases hs : pyTruthy (start_ingestion_job (env.startResp st.nStart)) with
      | false =>
        rw [processRecord_startFailed env st en bk k hq (hnr st.nList) hs]
        obtain ⟨ha, hb⟩ := ih _ hwfs
        refine ⟨ha, ?_⟩
        rw [hb]
        have hq2 : qualifies ⟨some en, some bk, some k⟩ = true := by
          simpa [qualifies] using hq
        simp [expectedCalls_cons, hq2]
      | true =>
        obtain ⟨jid, hid⟩ := startRecordable_truthy (env.startResp st.nStart) (hsr st.nStart) hs
        rw [processRecord_startedJob env st en bk k jid hq (hnr st.nList) hs hid]
        obtain ⟨ha, hb⟩ := ih _ hwfs
        refine ⟨ha, ?_⟩
        rw [hb]
        have hq2 : qualifies ⟨some en, some bk, some k⟩ = true := by
          simpa [qualifies] using hq
        simp [expectedCalls_cons, hq2]

lemma runBatch_noStart (env : Env) (recs : List RawRecord) (st : HState)
    (hrun : ∀ n, is_ingestion_running (env.listResp n) = true) :
    (runBatch env recs st).1.calls.count RemoteCall.startJob
      = st.calls.count RemoteCall.startJob := by
  induction recs generalizing st with
  | nil => simp [runBatch]
  | cons r rs ih =>
    obtain ⟨en?, bk?, k?⟩ := r
    cases en? with
    | none => simp [runBatch, processRecord]
    | some en =>
      cases bk? with
      | none => simp [runBatch, processRecord]
      | some bk =>
        cases k? with
        | none => simp [runBatch, processRecord]
        | some k =>
          cases hq : (pyStartsWith en "ObjectCreated" || pyStartsWith en "ObjectRemoved") with
          | false =>
            have h1 := processRecord_nonqual env st en bk k hq
            rw [runBatch_cons_ok env _ rs st (by rw [h1])]
            rw [h1, ih]
          | true =>
            have h1 := processRecord_running env st en bk k hq (hrun st.nList)
            rw [runBatch_cons_ok env _ rs st (by rw [h1])]
            rw [h1, ih]
            simp [List.count_append, List.count_singleton]

lemma expectedCalls_counts (recs : List RawRecord) :
    (expectedCalls recs).count RemoteCall.startJob = (recs.filter qualifies).length ∧
      (expectedCalls recs).count RemoteCall.listJobs = (recs.filter qualifies).length := by
  induction recs with
  | nil => simp [expectedCalls]
  | cons r rs ih =>
    rw [expectedCalls_cons]
    cases hq : qualifies r with
    | false => simpa [List.count_append, hq] using ih
    | true =>
      simp only [hq, if_true, List.count_append, List.filter_cons_of_pos hq, List.length_cons]
      have c1 : List.count RemoteCall.startJob [RemoteCall.listJobs, RemoteCall.startJob] = 1 := by
        decide
      have c2 : List.count RemoteCall.listJobs [RemoteCall.listJobs, RemoteCall.startJob] = 1 := by
        decide
      constructor
      · rw [ih.1, c1]; omega
      · rw [ih.2, c2]; omega

lemma pctDecode_cons_ne (c : Char) (rest : List Char) (hc : c ≠ '%') :
    pctDecode (c :: rest) = c :: pctDecode rest := by
  cases rest with
  | nil => simp [pctDecode]
  | cons a rest1 =>
    cases rest1 with
    | nil => simp [pctDecode]
    | cons b rest2 => simp [pctDecode, hc]

lemma pctDecode_no_pct (l : List Char) (h : '%' ∉ l) : pctDecode l = l := by
  induction l with
  | nil => rfl
  | cons c rest ih =>
    rw [List.mem_cons, not_or] at h
    rw [pctDecode_cons_ne c rest fun e => h.1 e.symm, ih h.2]

lemma map_plus_id (l : List Char) (h : '+' ∉ l) :
    (l.map fun c => if c = '+' then ' ' else c) = l := by
  induction l with
  | nil => rfl
  | cons c rest ih =>
    rw [List.mem_cons, not_or] at h
    have hc : ¬c = '+' := fun e => h.1 e.symm
    simp only [List.map_cons, if_neg hc, ih h.2]

lemma unquote_plus_id (s : String) (h1 : '%' ∉ s.data) (h2 : '+' ∉ s.data) :
    unquote_plus s = s := by
  cases s with
  | mk l =>
    show String.mk (pctDecode (l.map fun c => if c = '+' then ' ' else c)) = String.mk l
    rw [map_plus_id l h2, pctDecode_no_pct l h1]

/-! ### Concrete batches and environments used by the witness theorems -/

/-- A well-formed record of the created family. -/
def recCreated : RawRecord := ⟨some "ObjectCreated:Put", some "b", some "docs/f.txt"⟩

/-- A well-formed record matching neither event family. -/
def recOther : RawRecord := ⟨some "TestEvent", some "b", some "docs/f.txt"⟩

/-- A malformed record lacking all fields. -/
def recBad : RawRecord := ⟨none, none, none⟩

/-- An environment where no job is ever running and every start succeeds
with a job id. -/
def envIdle : Env :=
  ⟨fun _ => Except.ok [], fun _ => Except.ok (some [("ingestionJobId", "job-1")])⟩

/-- An environment where every list-jobs call raises. -/
def envListErr : Env :=
  ⟨fun _ => Except.error "boom", fun _ => Except.ok (some [("ingestionJobId", "job-1")])⟩

/-- An environment where a job is always reported in progress. -/
def envBusy : Env :=
  ⟨fun _ => Except.ok [⟨"j1", "IN_PROGRESS"⟩], fun _ => Except.ok none⟩

/-- An environment where the first start-job call raises and every later
one succeeds with a job id: a batch run against it exhibits a partial
(mixed) failure. -/
def envMixed : Env :=
  ⟨fun _ => Except.ok [],
   fun n => if n = 0 then Except.error "boom"
            else Except.ok (some [("ingestionJobId", "job-1")])⟩

/-- An environment where the start-job call returns a non-empty job object
lacking the key ingestionJobId. -/
def envNoId : Env :=
  ⟨fun _ => Except.ok [], fun _ => Except.ok (some [("status", "STARTING")])⟩

/-! ### The claims -/

/-- C1: on a successful list-jobs response of at most five job summaries,
`is_ingestion_running` returns true iff some returned job has status
STARTING or IN_PROGRESS; for every other returned status set (only
COMPLETE or FAILED, or an empty list) it returns false. -/
theorem C1_is_job_running_iff (jobs : List IngestionJobSummary)
    (h : jobs.length ≤ 5) :
    is_ingestion_running (Except.ok jobs) = true ↔
      ∃ j ∈ jobs, j.status = "STARTING" ∨ j.status = "IN_PROGRESS" :=
  running_iff jobs

theorem C1_witness :
    ([⟨"j1", "STARTING"⟩] : List IngestionJobSummary).length ≤ 5 ∧
      (is_ingestion_running (Except.ok [⟨"j1", "STARTING"⟩]) = true ↔
        ∃ j ∈ ([⟨"j1", "STARTING"⟩] : List IngestionJobSummary),
          j.status = "STARTING" ∨ j.status = "IN_PROGRESS") :=
  ⟨by decide, C1_is_job_running_iff [⟨"j1", "STARTING"⟩] (by decide)⟩

/-- C2: when the list-jobs call raises, `is_ingestion_running` returns
false (fail-open), so a qualifying record still reaches the start-job
call: its remote-call trace grows by one list-jobs call followed by one
start-job call. -/
theorem C2_fail_open (env : Env) (st : HState) (msg en bk k : String)
    (hq : (pyStartsWith en "ObjectCreated" || pyStartsWith en "ObjectRemoved") = true)
    (hl : env.listResp st.nList = Except.error msg) :
    is_ingestion_running (Except.error msg) = false ∧
      (processRecord env st ⟨some en, some bk, some k⟩).1.calls
        = st.calls ++ [RemoteCall.listJobs, RemoteCall.startJob] := by
  have hr : is_ingestion_running (env.listResp st.nList) = false := by rw [hl]; rfl
  refine ⟨rfl, ?_⟩
  cases hs : pyTruthy (start_ingestion_job (env.startResp st.nStart)) with
  | false => rw [processRecord_startFailed env st en bk k hq hr hs]
  | true =>
    cases hid : List.lookup "ingestionJobId"
        ((start_ingestion_job (env.startResp st.nStart)).getD []) with
    | some jid => rw [processRecord_startedJob env st en bk k jid hq hr hs hid]
    | none => rw [processRecord_missingId env st en bk k hq hr hs hid]

theorem C2_witness :
    (pyStartsWith "ObjectCreated:Put" "ObjectCreated"
        || pyStartsWith "ObjectCreated:Put" "ObjectRemoved") = true ∧
      envListErr.listResp initState.nList = Except.error "boom" ∧
      (is_ingestion_running (Except.error "boom") = false ∧
        (processRecord envListErr initState
            ⟨some "ObjectCreated:Put", some "b", some "docs/f.txt"⟩).1.calls
          = initState.calls ++ [RemoteCall.listJobs, RemoteCall.startJob]) :=
  ⟨by decide, rfl,
   C2_fail_open envListErr initState "boom" "ObjectCreated:Put" "b" "docs/f.txt"
     (by decide) rfl⟩

/-- C3: a record whose event name starts with neither ObjectCreated nor
ObjectRemoved makes no remote call, raises no error, leaves the call trace
and both call counters unchanged, and the batch loop proceeds to the next
record. -/
theorem C3_nonmatching_ignored (env : Env) (st : HState) (en bk k : String)
    (hc : pyStartsWith en "ObjectCreated" = false)
    (hrm : pyStartsWith en "ObjectRemoved" = false) :
    (processRecord env st ⟨some en, some bk, some k⟩).2 = none ∧
      (processRecord env st ⟨some en, some bk, some k⟩).1.calls = st.calls ∧
      (processRecord env st ⟨some en, some bk, some k⟩).1.nList = st.nList ∧
      (processRecord env st ⟨some en, some bk, some k⟩).1.nStart = st.nStart ∧
      ∀ rest, runBatch env (⟨some en, some bk, some k⟩ :: rest) st
        = runBatch env rest (processRecord env st ⟨some en, some bk, some k⟩).1 := by
  have hq : (pyStartsWith en "ObjectCreated" || pyStartsWith en "ObjectRemoved") = false := by
    rw [hc, hrm]; rfl
  have h1 := processRecord_nonqual env st en bk k hq
  exact ⟨by rw [h1], by rw [h1], by rw [h1], by rw [h1],
    fun rest => runBatch_cons_ok env _ rest st (by rw [h1])⟩

theorem C3_witness :
    pyStartsWith "TestEvent" "ObjectCreated" = false ∧
      pyStartsWith "TestEvent" "ObjectRemoved" = false ∧
      ((processRecord envIdle initState ⟨some "TestEvent", some "b", some "docs/f.txt"⟩).2
          = none ∧
        (processRecord envIdle initState
            ⟨some "TestEvent", some "b", some "docs/f.txt"⟩).1.calls = initState.calls) :=
  ⟨by decide, by decide,
   ⟨(C3_nonmatching_ignored envIdle initState "TestEvent" "b" "docs/f.txt"
       (by decide) (by decide)).1,
    (C3_nonmatching_ignored envIdle initState "TestEvent" "b" "docs/f.txt"
       (by decide) (by decide)).2.1⟩⟩

/-- C9: on the empty batch the handler makes no remote call at all and
returns status 200 with the completion message and the timestamp. -/
theorem C9_empty_batch (env : Env) (now : String) :
    handler env now ⟨some []⟩
        = (⟨200, HandlerBody.success "Ingestion processing completed" now⟩, initState) ∧
      initState.calls = ([] : List RemoteCall) :=
  ⟨rfl, rfl⟩

/-- C4: when processing some record raises an unexpected error, the handler
returns status 500 carrying the error message and the timestamp, and its
whole result (call trace included) is that of the batch truncated at the
failing record, regardless of the records after it, so no further remote
call is made; when no record raises, the handler returns status 200 with
the completion message and the timestamp after the full batch. -/
theorem C4_batch_outcome (env : Env) (now : String) :
    (∀ pre (r : RawRecord) post e,
        (runBatch env pre initState).2 = none →
        (processRecord env (runBatch env pre initState).1 r).2 = some e →
        handler env now ⟨some (pre ++ r :: post)⟩
          = (⟨500, HandlerBody.failure (errStr e) now⟩,
             (processRecord env (runBatch env pre initState).1 r).1)) ∧
    (∀ recs, (runBatch env recs initState).2 = none →
        (handler env now ⟨some recs⟩).1
          = ⟨200, HandlerBody.success "Ingestion processing completed" now⟩) := by
  constructor
  · intro pre r post e hpre hfail
    have happ := runBatch_append_ok env pre (r :: post) initState hpre
    cases hp : processRecord env (runBatch env pre initState).1 r with
    | mk st1 e1 =>
      rw [hp] at hfail
      have he : e1 = some e := hfail
      subst he
      have hrb : runBatch env (pre ++ r :: post) initState = (st1, some e) := by
        rw [happ]; simp [runBatch, hp]
      simp [handler, hrb, hp]
  · intro recs h
    cases hr : runBatch env recs initState with
    | mk st e1 =>
      rw [hr] at h
      have he : e1 = none := h
      subst he
      simp [handler, hr]

theorem C4_witness :
    (runBatch envIdle [] initState).2 = none ∧
      (processRecord envIdle (runBatch envIdle [] initState).1 recBad).2
        = some (PyErr.keyError "eventName") ∧
      handler envIdle "T" ⟨some ([] ++ recBad :: [recCreated])⟩
        = (⟨500, HandlerBody.failure (errStr (PyErr.keyError "eventName")) "T"⟩,
           (processRecord envIdle (runBatch envIdle [] initState).1 recBad).1) :=
  ⟨rfl, rfl,
   (C4_batch_outcome envIdle "T").1 [] recBad [recCreated]
     (PyErr.keyError "eventName") rfl rfl⟩

/-- C5: over any batch of well-formed records whose start responses are
recordable (each start-job call may fail or succeed with a job id), the
handler returns overall status 200 — so a batch in which some start-job
call fails still returns 200; and whichever record meets a failing (falsy)
start response records the failure, raises nothing, and the batch loop
proceeds to the next record. -/
theorem C5_start_failure_tolerated (env : Env) (now : String) (recs : List RawRecord)
    (hwf : ∀ r ∈ recs, wellFormed r = true)
    (hsr : ∀ n, startRecordable (env.startResp n) = true) :
    (handler env now ⟨some recs⟩).1.statusCode = 200 ∧
      ∀ st en bk k,
        (pyStartsWith en "ObjectCreated" || pyStartsWith en "ObjectRemoved") = true →
        is_ingestion_running (env.listResp st.nList) = false →
        pyTruthy (start_ingestion_job (env.startResp st.nStart)) = false →
        (processRecord env st ⟨some en, some bk, some k⟩).2 = none ∧
        (processRecord env st ⟨some en, some bk, some k⟩).1.logs
          = st.logs ++ [LogEvent.processing en (unquote_plus k), LogEvent.startFailed] ∧
        ∀ rest, runBatch env (⟨some en, some bk, some k⟩ :: rest) st
          = runBatch env rest (processRecord env st ⟨some en, some bk, some k⟩).1 := by
  constructor
  · have h := runBatch_noerr env recs initState hwf hsr
    cases hr : runBatch env recs initState with
    | mk st e1 =>
      rw [hr] at h
      have he : e1 = none := h
      subst he
      simp [handler, hr]
  · intro st en bk k hq hnr hfal
    have h1 := processRecord_startFailed env st en bk k hq hnr hfal
    exact ⟨by rw [h1], by rw [h1],
      fun rest => runBatch_cons_ok env _ rest st (by rw [h1])⟩

theorem C5_witness :
    (∀ r ∈ [recCreated, recCreated], wellFormed r = true) ∧
      (∀ n, startRecordable (envMixed.startResp n) = true) ∧
      pyTruthy (start_ingestion_job (envMixed.startResp 0)) = false ∧
      pyTruthy (start_ingestion_job (envMixed.startResp 1)) = true ∧
      (handler envMixed "T" ⟨some [recCreated, recCreated]⟩).1.statusCode = 200 :=
  ⟨by decide, fun n => by cases n with | zero => rfl | succ m => rfl, rfl, rfl,
   (C5_start_failure_tolerated envMixed "T" [recCreated, recCreated] (by decide)
      fun n => by cases n with | zero => rfl | succ m => rfl).1⟩

/-- C6: when every list-jobs call reports only COMPLETE or FAILED jobs (or
an empty list), over a batch of well-formed records whose start responses
are recordable the remote-call trace is exactly one list-jobs call followed
by one start-job call per qualifying record in input order: both calls are
counted exactly once per qualifying record, with no retries. -/
theorem C6_one_start_per_qualifying (env : Env) (now : String) (recs : List RawRecord)
    (hwf : ∀ r ∈ recs, wellFormed r = true)
    (hlist : ∀ n, ∃ jobs, env.listResp n = Except.ok jobs ∧
        ∀ j ∈ jobs, j.status = "COMPLETE" ∨ j.status = "FAILED")
    (hsr : ∀ n, startRecordable (env.startResp n) = true) :
    (handler env now ⟨some recs⟩).2.calls = expectedCalls recs ∧
      (handler env now ⟨some recs⟩).2.calls.count RemoteCall.startJob
        = (recs.filter qualifies).length ∧
      (handler env now ⟨some recs⟩).2.calls.count RemoteCall.listJobs
        = (recs.filter qualifies).length := by
  have hnr : ∀ n, is_ingestion_running (env.listResp n) = false := by
    intro n
    obtain ⟨jobs, hj, hall⟩ := hlist n
    rw [hj]
    cases hB : is_ingestion_running (Except.ok jobs) with
    | false => rfl
    | true =>
      exfalso
      obtain ⟨j, hjm, hst⟩ := (running_iff jobs).mp hB
      rcases hall j hjm with h | h <;> rcases hst with h2 | h2 <;> rw [h] at h2 <;>
        exact absurd h2 (by decide)
  obtain ⟨ha, hb⟩ := runBatch_trace env recs initState hwf hnr hsr
  cases hr : runBatch env recs initState with
  | mk st e1 =>
    rw [hr] at ha hb
    have he : e1 = none := ha
    subst he
    have hcalls : st.calls = expectedCalls recs := by simpa [initState] using hb
    have hhand : (handler env now ⟨some recs⟩).2 = st := by simp [handler, hr]
    rw [hhand, hcalls]
    exact ⟨rfl, (expectedCalls_counts recs).1, (expectedCalls_counts recs).2⟩

theorem C6_witness :
    (∀ r ∈ [recCreated, recOther], wellFormed r = true) ∧
      (∀ n, ∃ jobs, envIdle.listResp n = Except.ok jobs ∧
          ∀ j ∈ jobs, j.status = "COMPLETE" ∨ j.status = "FAILED") ∧
      (∀ n, startRecordable (envIdle.startResp n) = true) ∧
      (handler envIdle "T" ⟨some [recCreated, recOther]⟩).2.calls
        = expectedCalls [recCreated, recOther] :=
  ⟨by decide, fun _ => ⟨[], rfl, by simp⟩, fun _ => rfl,
   (C6_one_start_per_qualifying envIdle "T" [recCreated, recOther] (by decide)
      (fun _ => ⟨[], rfl, by simp⟩) fun _ => rfl).1⟩

/-- C7: when every list-jobs call reports a job with status IN_PROGRESS, no
batch ever produces a start-job call; and a qualifying record is skipped
with no error, only a list-jobs call, and the batch loop proceeds to the
next record. -/
theorem C7_skip_when_running (env : Env) (now : String)
    (hlist : ∀ n, ∃ jobs, env.listResp n = Except.ok jobs ∧
        ∃ j ∈ jobs, j.status = "IN_PROGRESS") :
    (∀ recs, RemoteCall.startJob ∉ (handler env now ⟨some recs⟩).2.calls) ∧
      ∀ st en bk k,
        (pyStartsWith en "ObjectCreated" || pyStartsWith en "ObjectRemoved") = true →
        (processRecord env st ⟨some en, some bk, some k⟩).2 = none ∧
        (processRecord env st ⟨some en, some bk, some k⟩).1.calls
          = st.calls ++ [RemoteCall.listJobs] ∧
        (processRecord env st ⟨some en, some bk, some k⟩).1.logs
          = st.logs ++ [LogEvent.processing en (unquote_plus k), LogEvent.skipRunning] ∧
        ∀ rest, runBatch env (⟨some en, some bk, some k⟩ :: rest) st
          = runBatch env rest (processRecord env st ⟨some en, some bk, some k⟩).1 := by
  have hrun : ∀ n, is_ingestion_running (env.listResp n) = true := by
    intro n
    obtain ⟨jobs, hj, j, hjm, hst⟩ := hlist n
    rw [hj]
    exact (running_iff jobs).mpr ⟨j, hjm, Or.inr hst⟩
  constructor
  · intro recs
    have hc := runBatch_noStart env recs initState hrun
    cases hr : runBatch env recs initState with
    | mk st e1 =>
      rw [hr] at hc
      have hc2 : st.calls.count RemoteCall.startJob = 0 := by
        simpa [initState] using hc
      have hmem : RemoteCall.startJob ∉ st.calls := List.count_eq_zero.mp hc2
      cases e1 with
      | none => simpa [handler, hr] using hmem
      | some e => simpa [handler, hr] using hmem
  · intro st en bk k hq
    have h1 := processRecord_running env st en bk k hq (hrun st.nList)
    exact ⟨by rw [h1], by rw [h1], by rw [h1],
      fun rest => runBatch_cons_ok env _ rest st (by rw [h1])⟩

theorem C7_witness :
    (∀ n, ∃ jobs, envBusy.listResp n = Except.ok jobs ∧
        ∃ j ∈ jobs, j.status = "IN_PROGRESS") ∧
      RemoteCall.startJob ∉ (handler envBusy "T" ⟨some [recCreated]⟩).2.calls :=
  ⟨fun _ => ⟨[⟨"j1", "IN_PROGRESS"⟩], rfl, ⟨"j1", "IN_PROGRESS"⟩, by simp, rfl⟩,
   (C7_skip_when_running envBusy "T"
      fun _ => ⟨[⟨"j1", "IN_PROGRESS"⟩], rfl, ⟨"j1", "IN_PROGRESS"⟩, by simp, rfl⟩).1
     [recCreated]⟩

/-- C8 counterexample: the key a+b.txt contains no percent-encoded sequence,
yet the decoding step at line 26 changes it, contradicting the claim that
keys without percent-encoded sequences are used unchanged. -/
theorem C8_counterexample :
    '%' ∉ "a+b.txt".data ∧ unquote_plus "a+b.txt" ≠ "a+b.txt" := by decide

/-- C8 (amended): the object key is decoded by plus-to-space substitution
followed by percent decoding before it is used or logged: a%2Bb.txt becomes
a+b.txt, a+b.txt becomes a b.txt, a key containing neither a percent sign
nor a plus sign is unchanged, and the first log entry of a well-formed
record carries the decoded key. -/
theorem C8_key_decoding :
    unquote_plus "a%2Bb.txt" = "a+b.txt" ∧
      unquote_plus "a+b.txt" = "a b.txt" ∧
      (∀ s : String, '%' ∉ s.data → '+' ∉ s.data → unquote_plus s = s) ∧
      ∀ env st en bk k, ∃ rest,
        (processRecord env st ⟨some en, some bk, some k⟩).1.logs
          = st.logs ++ LogEvent.processing en (unquote_plus k) :: rest := by
  refine ⟨by decide, by decide, fun s h1 h2 => unquote_plus_id s h1 h2, ?_⟩
  intro env st en bk k
  cases hq : (pyStartsWith en "ObjectCreated" || pyStartsWith en "ObjectRemoved") with
  | false => exact ⟨[], by rw [processRecord_nonqual env st en bk k hq]⟩
  | true =>
    cases hrn : is_ingestion_running (env.listResp st.nList) with
    | true =>
      exact ⟨[LogEvent.skipRunning],
        by rw [processRecord_running env st en bk k hq hrn]⟩
    | false =>
      cases hs : pyTruthy (start_ingestion_job (env.startResp st.nStart)) with
      | false =>
        exact ⟨[LogEvent.startFailed],
          by rw [processRecord_startFailed env st en bk k hq hrn hs]⟩
      | true =>
        cases hid : List.lookup "ingestionJobId"
            ((start_ingestion_job (env.startResp st.nStart)).getD []) with
        | some jid =>
          exact ⟨[LogEvent.startedJob jid],
            by rw [processRecord_startedJob env st en bk k jid hq hrn hs hid]⟩
        | none => exact ⟨[], by rw [processRecord_missingId env st en bk k hq hrn hs hid]⟩

theorem C8_witness :
    '%' ∉ "docs/f.txt".data ∧ '+' ∉ "docs/f.txt".data ∧
      unquote_plus "docs/f.txt" = "docs/f.txt" :=
  ⟨by decide, by decide, C8_key_decoding.2.2.1 "docs/f.txt" (by decide) (by decide)⟩

/-- C10: when the guard sees no running job and the start call succeeds
with a non-empty job object lacking the key ingestionJobId, recording the
success raises a lookup error that the outer handler catches: the
invocation returns status 500 with that error message and the timestamp,
and the records after the failing first one are not processed (the call
trace stops at its list-jobs and start-job calls). -/
theorem C10_missing_job_id (env : Env) (now : String) (en bk k : String)
    (rest : List RawRecord) (d : PyDict)
    (hq : (pyStartsWith en "ObjectCreated" || pyStartsWith en "ObjectRemoved") = true)
    (hl : is_ingestion_running (env.listResp 0) = false)
    (hs : env.startResp 0 = Except.ok (some d))
    (hd : d.isEmpty = false)
    (hid : List.lookup "ingestionJobId" d = none) :
    (handler env now ⟨some (⟨some en, some bk, some k⟩ :: rest)⟩).1
        = ⟨500, HandlerBody.failure (errStr (PyErr.keyError "ingestionJobId")) now⟩ ∧
      (handler env now ⟨some (⟨some en, some bk, some k⟩ :: rest)⟩).2.calls
        = [RemoteCall.listJobs, RemoteCall.startJob] := by
  have hsj : start_ingestion_job (env.startResp 0) = some d := by rw [hs]; rfl
  have htr : pyTruthy (start_ingestion_job (env.startResp 0)) = true := by
    rw [hsj]; simp [pyTruthy, hd]
  have hid2 : List.lookup "ingestionJobId"
      ((start_ingestion_job (env.startResp 0)).getD []) = none := by
    rw [hsj]; simpa using hid
  have h1 := processRecord_missingId env initState en bk k hq hl htr hid2
  constructor
  · simp [handler, runBatch, h1]
  · simp [handler, runBatch, h1]
    simp [initState]

theorem C10_witness :
    (pyStartsWith "ObjectCreated:Put" "ObjectCreated"
        || pyStartsWith "ObjectCreated:Put" "ObjectRemoved") = true ∧
      is_ingestion_running (envNoId.listResp 0) = false ∧
      envNoId.startResp 0 = Except.ok (some [("status", "STARTING")]) ∧
      ([("status", "STARTING")] : PyDict).isEmpty = false ∧
      List.lookup "ingestionJobId" ([("status", "STARTING")] : PyDict) = none ∧
      (handler envNoId "T" ⟨some (⟨some "ObjectCreated:Put", some "b", some "docs/f.txt"⟩
          :: [recOther])⟩).1
        = ⟨500, HandlerBody.failure (errStr (PyErr.keyError "ingestionJobId")) "T"⟩ :=
  ⟨by decide, rfl, rfl, rfl, rfl,
   (C10_missing_job_id envNoId "T" "ObjectCreated:Put" "b" "docs/f.txt" [recOther]
      [("status", "STARTING")] (by decide) rfl rfl rfl rfl).1⟩
